import Mathlib

/-!
Verification of the concurrent TCP port scanner in `NewPortScanner.py`.

The Python program is shallowly embedded as follows.

* Machine integers (port numbers, connect error codes, thread counts)
  become `Int`.
* The operating-system services the program calls are oracles passed as
  function arguments: `serv : Int → Option String` models the OS
  service-name table consulted by `socket.getservbyport` (`none` means
  the lookup raises `OSError`), `net : Int → ConnectOutcome` models the
  network's answer to `sock.connect_ex` for a given port, and
  `resolve : String → Option String` models `socket.gethostbyname`
  (`none` means it raises `socket.gaierror`).
* Python exceptions become the `PyExc` type together with `Except`
  return values; a `try/except socket.error: pass` block becomes a match
  on the `Except` value that swallows exactly the socket/OS errors.
* The shared FIFO work queue and the worker pool become a small-step
  transition system `QStep` on `QState`: any worker may atomically
  withdraw the front port of the queue, which is exactly the guarantee
  `queue.get_nowait()` gives.  The nondeterministic order in which
  concurrent probes complete (and hence append to `open_ports` under
  the lock) is modelled by running the probes over an arbitrary
  permutation `cs` of the enqueued ports.
-/

deriving instance DecidableEq for Except

/-- Python runtime exception classes relevant to the scanner.
`socketError` stands for the `OSError`/`socket.error` family (in
Python 3 `socket.error` is an alias of `OSError`), `overflowError` for
`OverflowError` (raised by `connect_ex` and `getservbyport` when the
port is outside 0..65535), and `otherError` for every other fault. -/
inductive PyExc
  | socketError
  | overflowError
  | otherError
deriving DecidableEq, Repr

/-- Whether an exception is caught by `except socket.error` (equally by
`except (OSError, socket.error)`): only the `OSError` family is. -/
def is_socket_error : PyExc → Bool
  | .socketError => true
  | _ => false

/-- Embedding of `socket.getservbyport(port)`: raises `OverflowError`
for a port outside 0..65535, returns the OS table entry when one
exists, and raises `OSError` (port/proto not found) otherwise. -/
def getservbyport (serv : Int → Option String) (port : Int) : Except PyExc String :=
  if port < 0 ∨ 65535 < port then .error .overflowError
  else
    match serv port with
    | some name => .ok name
    | none => .error .socketError

/-- Embedding of `get_service_name` (NewPortScanner.py lines 48-53):
calls `getservbyport` and turns an `(OSError, socket.error)` exception
into the literal string "unknown"; any other exception propagates. -/
def get_service_name (serv : Int → Option String) (port : Int) : Except PyExc String :=
  match getservbyport serv port with
  | .ok name => .ok name
  | .error e => if is_socket_error e then .ok "unknown" else .error e

/-- Oracle answer of the network for one `connect_ex` attempt: either a
normal return with an error code (0 means the connection was
established) or a raised exception. -/
inductive ConnectOutcome
  | code (c : Int)
  | exc (e : PyExc)
deriving DecidableEq, Repr

/-- Embedding of `sock.connect_ex((ip, port))`: raises `OverflowError`
for a port outside 0..65535, otherwise returns the network's error code
or raises the network's exception. -/
def connect_ex (net : Int → ConnectOutcome) (port : Int) : Except PyExc Int :=
  if port < 0 ∨ 65535 < port then .error .overflowError
  else
    match net port with
    | .code c => .ok c
    | .exc e => .error e

/-- Observable trace of one `scan_port` call: whether the transient
socket was opened, whether `sock.close()` was reached, and the value of
`open_ports` afterwards (or the uncaught exception). -/
structure ProbeTrace where
  opened : Bool
  closed : Bool
  result : Except PyExc (List (Int × String))
deriving DecidableEq, Repr

/-- Embedding of `scan_port` (NewPortScanner.py lines 33-46).  The body
is `sock = socket(...)`, `connect_ex`, on code 0 append
`(port, get_service_name(port))` to `open_ports` under the lock, then
`sock.close()`; the whole body sits in `try: ... except socket.error:
pass`.  Note that `sock.close()` is only reached when no exception is
raised after the socket is opened: there is no `finally`/`with`. -/
def scan_port (serv : Int → Option String) (net : Int → ConnectOutcome) (port : Int)
    (open_ports : List (Int × String)) : ProbeTrace :=
  match connect_ex net port with
  | .error e =>
      { opened := true, closed := false,
        result := if is_socket_error e then .ok open_ports else .error e }
  | .ok code =>
      if code = 0 then
        match get_service_name serv port with
        | .error e =>
            { opened := true, closed := false,
              result := if is_socket_error e then .ok open_ports else .error e }
        | .ok name =>
            { opened := true, closed := true,
              result := .ok (open_ports ++ [(port, name)]) }
      else
        { opened := true, closed := true, result := .ok open_ports }

/-- The list of ports enqueued by `scan_ports`: the Python
`range(start_port, end_port + 1)` in iteration order. -/
def ports (s e : Int) : List Int :=
  (List.range (e + 1 - s).toNat).map (fun i : Nat => s + (i : Int))

/-- Run `scan_port` once per port of `cs` (a completion order),
threading `open_ports`; an uncaught exception aborts that worker and
propagates. -/
def runProbes (serv : Int → Option String) (net : Int → ConnectOutcome)
    (cs : List Int) (op : List (Int × String)) : Except PyExc (List (Int × String)) :=
  match cs with
  | [] => .ok op
  | p :: rest =>
      match (scan_port serv net p op).result with
      | .ok op' => runProbes serv net rest op'
      | .error e => .error e

/-- The comparison Python's `sorted` uses on the `(port, service)`
tuples of `open_ports`: lexicographic order on pairs. -/
def pyLE (a b : Int × String) : Prop :=
  a.1 < b.1 ∨ (a.1 = b.1 ∧ a.2 ≤ b.2)

instance : DecidableRel pyLE := fun a b => by
  unfold pyLE
  exact inferInstance

/-- Embedding of Python's `sorted(open_ports)`: a stable sort of the
tuple list under lexicographic order. -/
def pySorted (l : List (Int × String)) : List (Int × String) :=
  List.insertionSort pyLE l

/-- The value appended to `open_ports` by a fault-free probe of port
`p`: the `(port, service)` pair when `connect_ex` returns 0, nothing
otherwise. -/
def probe_entry (serv : Int → Option String) (net : Int → ConnectOutcome) (p : Int) :
    Option (Int × String) :=
  match connect_ex net p, get_service_name serv p with
  | .ok 0, .ok name => some (p, name)
  | _, _ => none

/-- What the scan returns once all probes have completed in the order
`cs`: `sorted(open_ports)`, or the first uncaught worker exception. -/
def scan_result (serv : Int → Option String) (net : Int → ConnectOutcome)
    (cs : List Int) : Except PyExc (List (Int × String)) :=
  match runProbes serv net cs [] with
  | .ok op => .ok (pySorted op)
  | .error e => .error e

/-- Observable trace of one `scan_ports` call. -/
structure ScanTrace where
  enqueued : List Int
  spawned : Nat
  result : Except PyExc (List (Int × String))
deriving DecidableEq, Repr

/-- Embedding of `scan_ports` (NewPortScanner.py lines 68-95): enqueue
`range(start_port, end_port + 1)`, spawn
`min(num_threads, end_port - start_port + 1)` worker threads (Python's
`for _ in range(actual_threads)` spawns nothing when that integer is
not positive), wait for the queue to drain, and return
`sorted(open_ports)`.  The canonical FIFO completion order is used
here; theorems about scheduling quantify over `scan_result` at an
arbitrary permutation of the enqueued ports. -/
def scan_ports (serv : Int → Option String) (net : Int → ConnectOutcome)
    (s e t : Int) : ScanTrace :=
  { enqueued := ports s e
    spawned := (min t (e - s + 1)).toNat
    result := scan_result serv net (ports s e) }

/-- State of the shared work queue: the ports still enqueued (front
first) and the withdrawals so far, each tagged with the worker id that
performed it. -/
structure QState where
  pending : List Int
  taken : List (Int × Nat)
deriving DecidableEq, Repr

/-- One atomic `queue.get_nowait()` by some worker `w`: the front port
moves from the queue to that worker, which then probes it exactly
once.  This is the only transition of the Work Queue. -/
inductive QStep : QState → QState → Prop
  | take (w : Nat) (p : Int) (rest : List Int) (tk : List (Int × Nat)) :
      QStep ⟨p :: rest, tk⟩ ⟨rest, tk ++ [(p, w)]⟩

/-- Any interleaving of worker withdrawals. -/
def QSteps : QState → QState → Prop :=
  Relation.ReflTransGen QStep

/-- The queue state after the enqueue loop of `scan_ports`: every port
of the range enqueued once, nothing withdrawn yet. -/
def initState (s e : Int) : QState :=
  ⟨ports s e, []⟩

/-- Command-line arguments of `main` after `argparse`. -/
structure CliArgs where
  target : String
  start : Int
  end_ : Int
  threads : Int
deriving DecidableEq, Repr

/-- Observable trace of one `main` call: the resolved address (if
any), the ports enqueued and probed, the worker count, the content of
`open_ports` when the scan stopped, what `print_results` received (if
reached), the error or interrupt message printed, and whether the
process crashed with a stack trace. -/
structure MainTrace where
  resolvedIp : Option String
  enqueued : List Int
  spawned : Nat
  probed : List Int
  aggregated : List (Int × String)
  printedResults : Option (List (Int × String))
  message : Option String
  exitCrash : Bool
deriving DecidableEq, Repr

/-- The content of `open_ports` after probing the ports `cs` (empty if
a worker died on an uncaught exception). -/
def open_ports_after (serv : Int → Option String) (net : Int → ConnectOutcome)
    (cs : List Int) : List (Int × String) :=
  match runProbes serv net cs [] with
  | .ok l => l
  | .error _ => []

/-- The uninterrupted tail of `main` after a successful resolution:
run `scan_ports` and hand the result to `print_results`; a stray
exception reaching `main` is caught by its `except Exception` arm. -/
def mainRun (ip : String) (serv : Int → Option String) (net : Int → ConnectOutcome)
    (args : CliArgs) : MainTrace :=
  match (scan_ports serv net args.start args.end_ args.threads).result with
  | .ok r =>
      { resolvedIp := some ip
        enqueued := ports args.start args.end_
        spawned := (min args.threads (args.end_ - args.start + 1)).toNat
        probed := ports args.start args.end_
        aggregated := open_ports_after serv net (ports args.start args.end_)
        printedResults := some r
        message := none
        exitCrash := false }
  | .error _ =>
      { resolvedIp := some ip
        enqueued := ports args.start args.end_
        spawned := (min args.threads (args.end_ - args.start + 1)).toNat
        probed := ports args.start args.end_
        aggregated := []
        printedResults := none
        message := some "An error occurred"
        exitCrash := false }

/-- Embedding of `main` (NewPortScanner.py lines 117-157).  The whole
body sits in one `try`: `gethostbyname` failure is caught as
`socket.gaierror` and prints an error before any scanning state exists;
a `KeyboardInterrupt` delivered after `k` completed probes abandons the
scan, prints the interrupt notice and discards `open_ports` (the local
of `scan_ports` lost when the exception unwinds), reaching neither
`print_results` nor the output file. -/
def scanner_main (resolve : String → Option String) (serv : Int → Option String)
    (net : Int → ConnectOutcome) (interruptAfter : Option Nat) (args : CliArgs) : MainTrace :=
  match resolve args.target with
  | none =>
      { resolvedIp := none, enqueued := [], spawned := 0, probed := [], aggregated := [],
        printedResults := none,
        message := some "Error: Could not resolve hostname", exitCrash := false }
  | some ip =>
      match interruptAfter with
      | some k =>
          if k < (ports args.start args.end_).length then
            { resolvedIp := some ip
              enqueued := ports args.start args.end_
              spawned := (min args.threads (args.end_ - args.start + 1)).toNat
              probed := (ports args.start args.end_).take k
              aggregated := open_ports_after serv net ((ports args.start args.end_).take k)
              printedResults := none
              message := some "Scan interrupted by user"
              exitCrash := false }
          else mainRun ip serv net args
      | none => mainRun ip serv net args

/-! ### Helper lemmas -/

instance : IsTotal (Int × String) pyLE := by
  constructor
  intro a b
  rcases lt_trichotomy a.1 b.1 with h | h | h
  · exact Or.inl (Or.inl h)
  · rcases le_total a.2 b.2 with h2 | h2
    · exact Or.inl (Or.inr ⟨h, h2⟩)
    · exact Or.inr (Or.inr ⟨h.symm, h2⟩)
  · exact Or.inr (Or.inl h)

instance : IsTrans (Int × String) pyLE := by
  constructor
  intro a b c hab hbc
  rcases hab with h1 | ⟨h1, h1s⟩
  · rcases hbc with h2 | ⟨h2, _⟩
    · exact Or.inl (lt_trans h1 h2)
    · exact Or.inl (h2 ▸ h1)
  · rcases hbc with h2 | ⟨h2, h2s⟩
    · exact Or.inl (h1 ▸ h2)
    · exact Or.inr ⟨h1.trans h2, le_trans h1s h2s⟩

instance : IsAntisymm (Int × String) pyLE := by
  constructor
  intro a b hab hba
  rcases hab with h1 | ⟨h1, h1s⟩
  · rcases hba with h2 | ⟨h2, h2s⟩
    · exact absurd h2 (lt_asymm h1)
    · rw [h2] at h1
      exact absurd h1 (lt_irrefl _)
  · rcases hba with h2 | ⟨h2, h2s⟩
    · rw [h1] at h2
      exact absurd h2 (lt_irrefl _)
    · exact Prod.ext h1 (le_antisymm h1s h2s)

lemma mem_ports {s e p : Int} : p ∈ ports s e ↔ s ≤ p ∧ p ≤ e := by
  unfold ports
  simp only [List.mem_map, List.mem_range]
  constructor
  · rintro ⟨i, hi, rfl⟩
    constructor <;> omega
  · rintro ⟨h1, h2⟩
    exact ⟨(p - s).toNat, by omega, by omega⟩

lemma ports_nodup (s e : Int) : (ports s e).Nodup := by
  unfold ports
  refine (List.nodup_range _).map ?_
  intro a b h
  have h' : s + (a : Int) = s + (b : Int) := h
  omega

lemma ports_length (s e : Int) : (ports s e).length = (e + 1 - s).toNat := by
  unfold ports
  rw [List.length_map, List.length_range]

lemma ports_count {s e p : Int} (h1 : s ≤ p) (h2 : p ≤ e) : (ports s e).count p = 1 :=
  List.count_eq_one_of_mem (ports_nodup s e) (mem_ports.mpr ⟨h1, h2⟩)

lemma get_service_name_valid (serv : Int → Option String) {p : Int}
    (h0 : 0 ≤ p) (h1 : p ≤ 65535) :
    get_service_name serv p = .ok ((serv p).getD "unknown") := by
  unfold get_service_name getservbyport
  rw [if_neg (by omega)]
  cases h : serv p <;> simp [is_socket_error]

lemma connect_ex_code {net : Int → ConnectOutcome} {p c : Int}
    (h0 : 0 ≤ p) (h1 : p ≤ 65535) (h : net p = .code c) :
    connect_ex net p = .ok c := by
  unfold connect_ex
  rw [if_neg (by omega), h]

lemma connect_ex_exc {net : Int → ConnectOutcome} {p : Int} {e : PyExc}
    (h0 : 0 ≤ p) (h1 : p ≤ 65535) (h : net p = .exc e) :
    connect_ex net p = .error e := by
  unfold connect_ex
  rw [if_neg (by omega), h]

lemma probe_entry_valid {serv : Int → Option String} {net : Int → ConnectOutcome} {p c : Int}
    (h0 : 0 ≤ p) (h1 : p ≤ 65535) (hc : net p = .code c) :
    probe_entry serv net p =
      if c = 0 then some (p, (serv p).getD "unknown") else none := by
  unfold probe_entry
  rw [connect_ex_code h0 h1 hc, get_service_name_valid serv h0 h1]
  by_cases h : c = 0 <;> simp [h]

lemma scan_port_valid (serv : Int → Option String) {net : Int → ConnectOutcome} {p c : Int}
    (op : List (Int × String)) (h0 : 0 ≤ p) (h1 : p ≤ 65535) (hc : net p = .code c) :
    scan_port serv net p op =
      { opened := true, closed := true,
        result := .ok (op ++ (probe_entry serv net p).toList) } := by
  unfold scan_port
  rw [connect_ex_code h0 h1 hc, probe_entry_valid h0 h1 hc,
    get_service_name_valid serv h0 h1]
  by_cases h : c = 0 <;> simp [h]

lemma runProbes_valid (serv : Int → Option String) {net : Int → ConnectOutcome} :
    ∀ (cs : List Int) (op : List (Int × String)),
    (∀ p ∈ cs, 0 ≤ p ∧ p ≤ 65535 ∧ ∃ c, net p = .code c) →
    runProbes serv net cs op = .ok (op ++ cs.filterMap (probe_entry serv net)) := by
  intro cs
  induction cs with
  | nil => intro op _; simp [runProbes]
  | cons p rest ih =>
      intro op h
      obtain ⟨h0, h1, c, hc⟩ := h p (List.mem_cons_self p rest)
      have hrest := ih (op ++ (probe_entry serv net p).toList)
        (fun q hq => h q (List.mem_cons_of_mem p hq))
      rw [runProbes, scan_port_valid serv op h0 h1 hc]
      cases hpe : probe_entry serv net p with
      | none => simpa [hpe, List.filterMap_cons] using hrest
      | some x => simpa [hpe, List.filterMap_cons, List.append_assoc] using hrest

lemma probe_entry_fst {serv : Int → Option String} {net : Int → ConnectOutcome} {p : Int}
    {x : Int × String} (h : probe_entry serv net p = some x) : x.1 = p := by
  unfold probe_entry at h
  split at h
  · cases h; rfl
  · cases h

lemma probe_entry_reachable {serv : Int → Option String} {net : Int → ConnectOutcome} {p : Int}
    {x : Int × String} (h0 : 0 ≤ p) (h1 : p ≤ 65535)
    (h : probe_entry serv net p = some x) : net p = .code 0 := by
  cases hc : net p with
  | code c =>
      rw [probe_entry_valid h0 h1 hc] at h
      split at h
      · subst_vars; rfl
      · cases h
  | exc e =>
      unfold probe_entry at h
      rw [connect_ex_exc h0 h1 hc] at h
      simp at h

lemma map_fst_filterMap_sublist (serv : Int → Option String) (net : Int → ConnectOutcome) :
    ∀ l : List Int, ((l.filterMap (probe_entry serv net)).map Prod.fst).Sublist l := by
  intro l
  induction l with
  | nil => simp
  | cons p rest ih =>
      rw [List.filterMap_cons]
      cases h : probe_entry serv net p with
      | none => exact ih.cons p
      | some x =>
          rw [List.map_cons, probe_entry_fst h]
          exact ih.cons₂ p

lemma QSteps_inv {σ σ' : QState} (h : QSteps σ σ') :
    σ'.taken.map Prod.fst ++ σ'.pending = σ.taken.map Prod.fst ++ σ.pending := by
  induction h with
  | refl => rfl
  | tail _ hstep ih =>
      cases hstep with
      | take w p rest tk =>
          rw [← ih]
          simp

lemma QSteps_complete : ∀ (pend : List Int) (tk : List (Int × Nat)),
    QSteps ⟨pend, tk⟩ ⟨[], tk ++ pend.map (fun p => (p, 0))⟩ := by
  intro pend
  induction pend with
  | nil =>
      intro tk
      simpa using Relation.ReflTransGen.refl
  | cons p rest ih =>
      intro tk
      have h2 := ih (tk ++ [(p, 0)])
      rw [List.append_assoc, List.singleton_append] at h2
      exact Relation.ReflTransGen.head (QStep.take 0 p rest tk) h2

/-! ### Claims -/

/-- Claim C1: for every valid port range `[s, e]` (`s ≤ e`), the scan
produces exactly one probe per port of the range: every port is
enqueued exactly once (the initial queue counts it once), a draining
run exists, and in every drained run the withdrawal sequence is exactly
the enqueued range, so each port is withdrawn by exactly one worker and
probed exactly once, never skipped and never double-probed; in the
degenerate case `s = e` the queue terminates after one withdrawal. -/
theorem scan_exactly_once (s e : Int) (hse : s ≤ e) :
    (∀ p, s ≤ p → p ≤ e → (initState s e).pending.count p = 1) ∧
    (∃ σ, QSteps (initState s e) σ ∧ σ.pending = []) ∧
    (∀ σ, QSteps (initState s e) σ → σ.pending = [] →
      σ.taken.map Prod.fst = ports s e ∧
      (∀ p, s ≤ p → p ≤ e → (σ.taken.map Prod.fst).count p = 1) ∧
      (∀ p, s ≤ p → p ≤ e → ∃! w, (p, w) ∈ σ.taken) ∧
      σ.taken.length = (e + 1 - s).toNat ∧
      (s = e → σ.taken.length = 1)) := by
  refine ⟨fun p h1 h2 => ports_count h1 h2, ?_, ?_⟩
  · exact ⟨⟨[], [] ++ (ports s e).map (fun p => (p, 0))⟩,
      QSteps_complete (ports s e) [], rfl⟩
  · intro σ hrun hdone
    have hinv := QSteps_inv hrun
    rw [hdone, List.append_nil] at hinv
    have hfst : σ.taken.map Prod.fst = ports s e := by
      simpa [initState] using hinv
    have hlen : σ.taken.length = (e + 1 - s).toNat := by
      have := congrArg List.length hfst
      rwa [List.length_map, ports_length] at this
    refine ⟨hfst, fun p h1 h2 => by rw [hfst]; exact ports_count h1 h2, ?_, hlen, ?_⟩
    · intro p h1 h2
      have hmem : p ∈ σ.taken.map Prod.fst := by
        rw [hfst]
        exact mem_ports.mpr ⟨h1, h2⟩
      obtain ⟨x, hx, hxp⟩ := List.mem_map.mp hmem
      have hnd : σ.taken.Pairwise (fun a b => a.1 ≠ b.1) := by
        rw [← List.pairwise_map]
        rw [hfst]
        exact ports_nodup s e
      refine ⟨x.2, ?_, ?_⟩
      · rw [← hxp]
        exact hx
      · intro w hw
        by_contra hne
        have hne' : (p, w) ≠ x := by
          intro hcon
          apply hne
          rw [← hcon]
        have hsymm : Symmetric (fun a b : Int × Nat => a.1 ≠ b.1) := by
          intro a b hab hba
          exact hab hba.symm
        exact hnd.forall hsymm hw hx hne' hxp.symm
    · intro hez
      rw [hlen]
      omega

/-- Witness for C1 at the concrete range `[1, 2]`: the drained run in
which a single worker 0 withdraws port 1 and then port 2. -/
theorem scan_exactly_once_witness :
    (QState.mk [] [(1, 0), (2, 0)]).taken.map Prod.fst = ports 1 2 ∧
    (QState.mk [] [(1, 0), (2, 0)]).taken.length = ((2 : Int) + 1 - 1).toNat := by
  have hsteps : QSteps (initState 1 2) ⟨[], [(1, 0), (2, 0)]⟩ :=
    Relation.ReflTransGen.tail
      (Relation.ReflTransGen.single (QStep.take 0 1 [2] []))
      (QStep.take 0 2 [] [(1, 0)])
  have h := (scan_exactly_once 1 2 (by decide)).2.2 ⟨[], [(1, 0), (2, 0)]⟩ hsteps rfl
  exact ⟨h.1, h.2.2.2.1⟩

lemma perm_valid {net : Int → ConnectOutcome} {s e : Int} {cs : List Int}
    (hperm : cs.Perm (ports s e)) (h0 : 0 ≤ s) (h65 : e ≤ 65535)
    (hnet : ∀ p ∈ ports s e, ∃ c, net p = ConnectOutcome.code c) :
    ∀ p ∈ cs, 0 ≤ p ∧ p ≤ 65535 ∧ ∃ c, net p = ConnectOutcome.code c := by
  intro p hp
  have hp' : p ∈ ports s e := hperm.mem_iff.mp hp
  have hb := mem_ports.mp hp'
  exact ⟨by omega, by omega, hnet p hp'⟩

lemma scan_result_perm_ok (serv : Int → Option String) {net : Int → ConnectOutcome}
    {s e : Int} {cs : List Int} (hperm : cs.Perm (ports s e))
    (h0 : 0 ≤ s) (h65 : e ≤ 65535)
    (hnet : ∀ p ∈ ports s e, ∃ c, net p = ConnectOutcome.code c) :
    scan_result serv net cs = .ok (pySorted (cs.filterMap (probe_entry serv net))) := by
  unfold scan_result
  rw [runProbes_valid serv cs [] (perm_valid hperm h0 h65 hnet)]
  simp only [List.nil_append]

lemma pySorted_perm_eq {l1 l2 : List (Int × String)} (h : l1.Perm l2) :
    pySorted l1 = pySorted l2 :=
  List.eq_of_perm_of_sorted
    (((List.perm_insertionSort pyLE l1).trans h).trans
      (List.perm_insertionSort pyLE l2).symm)
    (List.sorted_insertionSort pyLE l1) (List.sorted_insertionSort pyLE l2)

/-- Claim C2: for every scan over a valid port range, the returned
result contains entries only for ports of the range whose probe
returned reachable (`connect_ex` code 0), it is strictly ascending in
port number (hence sorted, each port at most once), and no unreachable
port appears.  `cs` is the order in which the concurrent probes
completed: any permutation of the enqueued ports. -/
theorem result_reachable_sorted (serv : Int → Option String) (net : Int → ConnectOutcome)
    (s e : Int) (cs : List Int) (hperm : cs.Perm (ports s e))
    (h0 : 0 ≤ s) (h65 : e ≤ 65535)
    (hnet : ∀ p ∈ ports s e, ∃ c, net p = ConnectOutcome.code c) :
    ∃ r, scan_result serv net cs = .ok r ∧
      (∀ x ∈ r, x.1 ∈ ports s e ∧ net x.1 = ConnectOutcome.code 0) ∧
      r.Pairwise (fun a b => a.1 < b.1) ∧
      (∀ p, net p ≠ ConnectOutcome.code 0 → p ∉ r.map Prod.fst) := by
  refine ⟨pySorted (cs.filterMap (probe_entry serv net)),
    scan_result_perm_ok serv hperm h0 h65 hnet, ?_, ?_, ?_⟩
  · intro x hx
    have hx' : x ∈ cs.filterMap (probe_entry serv net) :=
      (List.perm_insertionSort pyLE _).mem_iff.mp hx
    obtain ⟨p, hp, hpe⟩ := List.mem_filterMap.mp hx'
    have hp' : p ∈ ports s e := hperm.mem_iff.mp hp
    have hb := mem_ports.mp hp'
    have hfst := probe_entry_fst hpe
    rw [hfst]
    exact ⟨hp', probe_entry_reachable (by omega) (by omega) hpe⟩
  · have hsort : List.Sorted pyLE (pySorted (cs.filterMap (probe_entry serv net))) :=
      List.sorted_insertionSort pyLE _
    have hpermc : (cs.filterMap (probe_entry serv net)).Perm
        ((ports s e).filterMap (probe_entry serv net)) := hperm.filterMap _
    have hnodup : (((ports s e).filterMap (probe_entry serv net)).map Prod.fst).Nodup :=
      (ports_nodup s e).sublist (map_fst_filterMap_sublist serv net (ports s e))
    have hnodup' : ((pySorted (cs.filterMap (probe_entry serv net))).map Prod.fst).Nodup := by
      refine (List.Perm.nodup_iff ?_).mpr hnodup
      exact ((List.perm_insertionSort pyLE _).trans hpermc).map Prod.fst
    have hne : (pySorted (cs.filterMap (probe_entry serv net))).Pairwise
        (fun a b => a.1 ≠ b.1) := List.pairwise_map.mp hnodup'
    refine (hsort.and hne).imp ?_
    rintro a b ⟨hab, hne'⟩
    rcases hab with h | ⟨h, _⟩
    · exact h
    · exact absurd h hne'
  · intro p hp hmem
    obtain ⟨x, hx, hxp⟩ := List.mem_map.mp hmem
    have hx' : x ∈ cs.filterMap (probe_entry serv net) :=
      (List.perm_insertionSort pyLE _).mem_iff.mp hx
    obtain ⟨q, hq, hqe⟩ := List.mem_filterMap.mp hx'
    have hq' : q ∈ ports s e := hperm.mem_iff.mp hq
    have hb := mem_ports.mp hq'
    have := probe_entry_reachable (p := q) (by omega) (by omega) hqe
    rw [probe_entry_fst hqe] at hxp
    rw [hxp] at this
    exact hp this

/-- Witness for C2: range `[1, 3]`, completion order `[3, 1, 2]`, only
port 2 reachable. -/
theorem result_reachable_sorted_witness :
    ∃ r, scan_result (fun _ => none)
        (fun p => if p = 2 then ConnectOutcome.code 0 else ConnectOutcome.code 111)
        [3, 1, 2] = .ok r ∧
      (∀ x ∈ r, x.1 ∈ ports 1 3 ∧
        (if x.1 = 2 then ConnectOutcome.code 0 else ConnectOutcome.code 111) =
          ConnectOutcome.code 0) ∧
      r.Pairwise (fun a b => a.1 < b.1) ∧
      (∀ p : Int, (if p = 2 then ConnectOutcome.code 0 else ConnectOutcome.code 111) ≠
          ConnectOutcome.code 0 → p ∉ r.map Prod.fst) := by
  refine result_reachable_sorted (fun _ => none)
    (fun p => if p = 2 then ConnectOutcome.code 0 else ConnectOutcome.code 111)
    1 3 [3, 1, 2] (by decide) (by decide) (by decide) ?_
  intro p hp
  by_cases h : p = 2
  · exact ⟨0, by simp [h]⟩
  · exact ⟨111, by simp [h]⟩

/-- Claim C9: the scan result is deterministic in content: for one
probe oracle `net` (one set of reachable ports), any two completion
orders of the same port range give identical sorted results. -/
theorem scan_content_deterministic (serv : Int → Option String) (net : Int → ConnectOutcome)
    (s e : Int) (cs1 cs2 : List Int)
    (hperm1 : cs1.Perm (ports s e)) (hperm2 : cs2.Perm (ports s e))
    (h0 : 0 ≤ s) (h65 : e ≤ 65535)
    (hnet : ∀ p ∈ ports s e, ∃ c, net p = ConnectOutcome.code c) :
    scan_result serv net cs1 = scan_result serv net cs2 := by
  rw [scan_result_perm_ok serv hperm1 h0 h65 hnet,
    scan_result_perm_ok serv hperm2 h0 h65 hnet]
  exact congrArg Except.ok
    (pySorted_perm_eq ((hperm1.filterMap _).trans (hperm2.filterMap _).symm))

/-- Witness for C9: completion orders `[1, 2]` and `[2, 1]` of the
range `[1, 2]` give the same result. -/
theorem scan_content_deterministic_witness :
    scan_result (fun _ => none) (fun _ => ConnectOutcome.code 0) [1, 2] =
      scan_result (fun _ => none) (fun _ => ConnectOutcome.code 0) [2, 1] :=
  scan_content_deterministic (fun _ => none) (fun _ => ConnectOutcome.code 0)
    1 2 [1, 2] [2, 1] (by decide) (by decide) (by decide) (by decide)
    (fun p _ => ⟨0, rfl⟩)

/-- Claim C3: for every configured thread count `t ≥ 1` and valid port
range `[s, e]`, the number of workers spawned equals
`min(t, e - s + 1)` and hence never exceeds the number of ports. -/
theorem worker_count_bounded (serv : Int → Option String) (net : Int → ConnectOutcome)
    (s e t : Int) (ht : 1 ≤ t) (hse : s ≤ e) :
    ((scan_ports serv net s e t).spawned : Int) = min t (e - s + 1) ∧
    ((scan_ports serv net s e t).spawned : Int) ≤ e - s + 1 := by
  have hmin : (0 : Int) ≤ min t (e - s + 1) := le_min (by omega) (by omega)
  have heq : ((scan_ports serv net s e t).spawned : Int) = min t (e - s + 1) := by
    show ((min t (e - s + 1)).toNat : Int) = min t (e - s + 1)
    exact Int.toNat_of_nonneg hmin
  exact ⟨heq, heq ▸ min_le_right t (e - s + 1)⟩

/-- Witness for C3: 100 requested threads over the range `[1, 10]`
spawn exactly 10 workers. -/
theorem worker_count_bounded_witness :
    ((scan_ports (fun _ => none) (fun _ => ConnectOutcome.code 0) 1 10 100).spawned : Int) =
      min 100 ((10 : Int) - 1 + 1) ∧
    ((scan_ports (fun _ => none) (fun _ => ConnectOutcome.code 0) 1 10 100).spawned : Int) ≤
      (10 : Int) - 1 + 1 :=
  worker_count_bounded (fun _ => none) (fun _ => ConnectOutcome.code 0) 1 10 100
    (by decide) (by decide)

/-- Claim C10: calling `scan_ports` with `start_port > end_port` raises
nothing: the queue is never populated, zero workers are spawned, and
the empty list is returned. -/
theorem empty_range_returns_nothing (serv : Int → Option String) (net : Int → ConnectOutcome)
    (s e t : Int) (h : e < s) :
    scan_ports serv net s e t =
      { enqueued := [], spawned := 0, result := .ok [] } := by
  have hp : ports s e = [] := by
    unfold ports
    rw [show (e + 1 - s).toNat = 0 by omega]
    rfl
  have hsp : (min t (e - s + 1)).toNat = 0 := by
    have : min t (e - s + 1) ≤ e - s + 1 := min_le_right _ _
    omega
  unfold scan_ports
  rw [hp, hsp]
  rfl

/-- Witness for C10 at the inverted range `[5, 3]`. -/
theorem empty_range_returns_nothing_witness :
    scan_ports (fun _ => none) (fun _ => ConnectOutcome.code 0) 5 3 100 =
      { enqueued := [], spawned := 0, result := .ok [] } :=
  empty_range_returns_nothing (fun _ => none) (fun _ => ConnectOutcome.code 0)
    5 3 100 (by decide)

/-- Claim C4: if the hostname does not resolve, `main` prints the
resolution error and aborts before any scanning state exists: no port
is enqueued or probed, no worker is spawned, nothing is aggregated or
reported. -/
theorem resolution_failure_aborts (resolve : String → Option String)
    (serv : Int → Option String) (net : Int → ConnectOutcome)
    (interruptAfter : Option Nat) (args : CliArgs)
    (h : resolve args.target = none) :
    scanner_main resolve serv net interruptAfter args =
      { resolvedIp := none, enqueued := [], spawned := 0, probed := [], aggregated := [],
        printedResults := none,
        message := some "Error: Could not resolve hostname", exitCrash := false } := by
  unfold scanner_main
  rw [h]

/-- Witness for C4 at a concrete unresolvable target. -/
theorem resolution_failure_aborts_witness :
    scanner_main (fun _ => none) (fun _ => none) (fun _ => ConnectOutcome.code 0)
        none ⟨"no.such.host", 1, 1024, 100⟩ =
      { resolvedIp := none, enqueued := [], spawned := 0, probed := [], aggregated := [],
        printedResults := none,
        message := some "Error: Could not resolve hostname", exitCrash := false } :=
  resolution_failure_aborts (fun _ => none) (fun _ => none)
    (fun _ => ConnectOutcome.code 0) none ⟨"no.such.host", 1, 1024, 100⟩ rfl

/-- Claim C7: for every port number (0..65535), `get_service_name`
returns normally: the table's name when a mapping exists and the
literal "unknown" when the lookup raises, so a missing mapping is not
an error. -/
theorem get_service_name_total (serv : Int → Option String) (p : Int)
    (h0 : 0 ≤ p) (h1 : p ≤ 65535) :
    get_service_name serv p = .ok ((serv p).getD "unknown") ∧
    (∀ name, serv p = some name → get_service_name serv p = .ok name) ∧
    (serv p = none → get_service_name serv p = .ok "unknown") := by
  have h := get_service_name_valid serv h0 h1
  refine ⟨h, ?_, ?_⟩
  · intro name hn
    rw [h, hn]
    rfl
  · intro hn
    rw [h, hn]
    rfl

/-- Witness for C7 at port 80 with a table mapping it to "http". -/
theorem get_service_name_total_witness :
    get_service_name (fun q => if q = 80 then some "http" else none) 80 = .ok "http" ∧
    get_service_name (fun q => if q = 80 then some "http" else none) 4444 =
      .ok "unknown" := by
  refine ⟨?_, ?_⟩
  · exact (get_service_name_total (fun q => if q = 80 then some "http" else none) 80
      (by decide) (by decide)).2.1 "http" rfl
  · exact (get_service_name_total (fun q => if q = 80 then some "http" else none) 4444
      (by decide) (by decide)).2.2 rfl

/-- Counterexample to claim C5: a runtime fault that is not a
socket/OS error is NOT caught by `scan_port`.  Probing port 70000
(reachable via `-e 70000` on the command line) makes `connect_ex`
raise `OverflowError`, which `except socket.error` does not catch: the
probe ends in an uncaught exception instead of a recorded failure, the
worker thread dies, `queue.task_done()` is never called for the
withdrawn port and `queue.join()` blocks forever. -/
theorem uncaught_overflow_fault :
    (scan_port (fun _ => none) (fun _ => ConnectOutcome.code 0) 70000 []).result =
      .error PyExc.overflowError := by decide

/-- Claim C5 as amended: only faults of the `OSError`/`socket.error`
family raised during a probe are caught and treated as a probe failure
for that port (the port is simply not recorded and the worker
continues); any other fault propagates out of `scan_port` uncaught. -/
theorem socket_error_contained (serv : Int → Option String) (net : Int → ConnectOutcome)
    (p : Int) (op : List (Int × String)) (e : PyExc)
    (h0 : 0 ≤ p) (h1 : p ≤ 65535) (he : net p = ConnectOutcome.exc e)
    (hs : is_socket_error e = true) :
    (scan_port serv net p op).result = .ok op := by
  unfold scan_port
  rw [connect_ex_exc h0 h1 he]
  simp [hs]

/-- Witness for the amended C5: a connection attempt on port 80 that
raises a socket error leaves `open_ports` unchanged and the worker
alive. -/
theorem socket_error_contained_witness :
    (scan_port (fun _ => none) (fun _ => ConnectOutcome.exc PyExc.socketError)
      80 []).result = .ok [] :=
  socket_error_contained (fun _ => none)
    (fun _ => ConnectOutcome.exc PyExc.socketError) 80 [] PyExc.socketError
    (by decide) (by decide) rfl rfl

/-- Counterexample to claim C6: an execution of a single probe in
which the socket is opened but `sock.close()` is skipped.  When
`connect_ex` raises a socket error, control jumps to
`except socket.error: pass` before the `sock.close()` line: the probe
completes silently (`result = ok`) with the socket never released
(there is no `finally` or `with` block in `scan_port`). -/
theorem socket_leak_on_connect_exception :
    (scan_port (fun _ => none) (fun _ => ConnectOutcome.exc PyExc.socketError)
      80 []).opened = true ∧
    (scan_port (fun _ => none) (fun _ => ConnectOutcome.exc PyExc.socketError)
      80 []).closed = false ∧
    (scan_port (fun _ => none) (fun _ => ConnectOutcome.exc PyExc.socketError)
      80 []).result = .ok [] := by decide

/-- Claim C6 as amended: the socket is opened exactly once per probe
and `sock.close()` is reached on every probe in which `connect_ex`
returns normally (any error code, reachable or not); when an exception
is raised during the connect attempt, the close is skipped and the
socket is released only by garbage collection. -/
theorem close_on_normal_return (serv : Int → Option String) (net : Int → ConnectOutcome)
    (p c : Int) (op : List (Int × String)) (h0 : 0 ≤ p) (h1 : p ≤ 65535)
    (hc : net p = ConnectOutcome.code c) :
    (scan_port serv net p op).opened = true ∧ (scan_port serv net p op).closed = true := by
  rw [scan_port_valid serv op h0 h1 hc]
  exact ⟨rfl, rfl⟩

/-- Witness for the amended C6: a probe of port 80 answered with
connect error code 111 (refused) opens and closes its socket. -/
theorem close_on_normal_return_witness :
    (scan_port (fun _ => none) (fun _ => ConnectOutcome.code 111) 80 []).opened = true ∧
    (scan_port (fun _ => none) (fun _ => ConnectOutcome.code 111) 80 []).closed = true :=
  close_on_normal_return (fun _ => none) (fun _ => ConnectOutcome.code 111)
    80 111 [] (by decide) (by decide) rfl

/-- Counterexample to claim C8: on a KeyboardInterrupt after one
completed probe of the range `[1, 2]` with port 1 reachable, the
aggregated partial result `[(1, "unknown")]` exists but `main` reports
nothing: `print_results` is never reached (the claim says the partial
results are reported). -/
theorem interrupt_drops_partial_results :
    (scanner_main (fun _ => some "127.0.0.1") (fun _ => none)
        (fun _ => ConnectOutcome.code 0) (some 1)
        ⟨"localhost", 1, 2, 4⟩).aggregated = [(1, "unknown")] ∧
    (scanner_main (fun _ => some "127.0.0.1") (fun _ => none)
        (fun _ => ConnectOutcome.code 0) (some 1)
        ⟨"localhost", 1, 2, 4⟩).printedResults = none ∧
    (scanner_main (fun _ => some "127.0.0.1") (fun _ => none)
        (fun _ => ConnectOutcome.code 0) (some 1)
        ⟨"localhost", 1, 2, 4⟩).message = some "Scan interrupted by user" := by
  decide

/-- Claim C8 as amended: on user cancellation during the scan the
program exits cleanly with the clear message "Scan interrupted by
user" and no stack trace, but the partial results aggregated so far
are discarded rather than reported. -/
theorem interrupt_graceful (resolve : String → Option String) (serv : Int → Option String)
    (net : Int → ConnectOutcome) (k : Nat) (args : CliArgs) (ip : String)
    (hres : resolve args.target = some ip)
    (hk : k < (ports args.start args.end_).length) :
    (scanner_main resolve serv net (some k) args).message =
      some "Scan interrupted by user" ∧
    (scanner_main resolve serv net (some k) args).printedResults = none ∧
    (scanner_main resolve serv net (some k) args).exitCrash = false := by
  simp [scanner_main, hres, hk]

/-- Witness for the amended C8: an interrupt after one probe of
`[1, 2]`. -/
theorem interrupt_graceful_witness :
    (scanner_main (fun _ => some "127.0.0.1") (fun _ => none)
        (fun _ => ConnectOutcome.code 0) (some 1)
        ⟨"localhost", 1, 2, 4⟩).message = some "Scan interrupted by user" ∧
    (scanner_main (fun _ => some "127.0.0.1") (fun _ => none)
        (fun _ => ConnectOutcome.code 0) (some 1)
        ⟨"localhost", 1, 2, 4⟩).printedResults = none ∧
    (scanner_main (fun _ => some "127.0.0.1") (fun _ => none)
        (fun _ => ConnectOutcome.code 0) (some 1)
        ⟨"localhost", 1, 2, 4⟩).exitCrash = false :=
  interrupt_graceful (fun _ => some "127.0.0.1") (fun _ => none)
    (fun _ => ConnectOutcome.code 0) 1 ⟨"localhost", 1, 2, 4⟩ "127.0.0.1" rfl
    (by decide)
